import Mathlib

/-!
Verification of the octl setup wizard against its specification.

Each section shallowly embeds one part of the TypeScript source:
pure functions become Lean functions, effectful provider calls become
explicit event lists or response oracles, and the provider's remote
state is threaded as an explicit value where a claim needs it.
-/

namespace Octl

/-! ### Secret derivation (src/lib/crypto.ts) -/

/-- Fixed application namespace used as the salt prefix (crypto.ts line 3). -/
def SALT_PREFIX : String := "olympusoss"

/-- PBKDF2 iteration count (crypto.ts line 4). -/
def ITERATIONS : Nat := 600000

/-- Abstract byte family standing for PBKDF2-HMAC-SHA256: given password, salt,
iteration count and byte index it yields one output byte.  Node's pbkdf2Sync
returns exactly the requested number of bytes, each a deterministic function of
(password, salt, iterations, index); the embedding keeps the byte family
abstract and quantifies over it. -/
def ByteKdf : Type := String → String → Nat → Nat → Fin 256

/-- One lowercase hexadecimal digit, for n < 16. -/
def hexDigit (n : Nat) : Char :=
  if n < 10 then Char.ofNat (48 + n) else Char.ofNat (97 + (n - 10))

/-- Hex encoding of a single byte: two lowercase hex characters. -/
def byteHex (b : Fin 256) : List Char :=
  [hexDigit (b.val / 16), hexDigit (b.val % 16)]

/-- Buffer.toString("hex"): two lowercase hex characters per byte. -/
def hexEncode (bs : List (Fin 256)) : String :=
  String.mk (List.flatten (bs.map byteHex))

/-- pbkdf2Sync(password, salt, iterations, bytes, "sha256").toString("hex"). -/
def pbkdf2Hex (prf : ByteKdf) (password salt : String) (iterations bytes : Nat) : String :=
  hexEncode ((List.range bytes).map (fun i => prf password salt iterations i))

/-- Salt for a named secret (crypto.ts line 18): the fixed namespace, a colon,
then the secret's name. -/
def saltFor (name : String) : String := SALT_PREFIX ++ ":" ++ name

/-- crypto.ts deriveSecret (lines 17-20). -/
def deriveSecret (prf : ByteKdf) (passphrase name : String) (bytes : Nat) : String :=
  pbkdf2Hex prf passphrase (saltFor name) ITERATIONS bytes

/-- crypto.ts deriveAllSecrets (lines 29-61), as the ordered association list of
the entries it inserts.  Cookie secrets request 32 bytes, cipher secrets 16. -/
def deriveAllSecrets (prf : ByteKdf) (passphrase : String) (includeSite : Bool) :
    List (String × String) :=
  [("CIAM_KRATOS_SECRET_COOKIE", deriveSecret prf passphrase "CIAM_KRATOS_SECRET_COOKIE" 32),
   ("CIAM_KRATOS_SECRET_CIPHER", deriveSecret prf passphrase "CIAM_KRATOS_SECRET_CIPHER" 16),
   ("IAM_KRATOS_SECRET_COOKIE", deriveSecret prf passphrase "IAM_KRATOS_SECRET_COOKIE" 32),
   ("IAM_KRATOS_SECRET_CIPHER", deriveSecret prf passphrase "IAM_KRATOS_SECRET_CIPHER" 16),
   ("CIAM_HYDRA_SECRET_SYSTEM", deriveSecret prf passphrase "CIAM_HYDRA_SECRET_SYSTEM" 32),
   ("CIAM_HYDRA_PAIRWISE_SALT", deriveSecret prf passphrase "CIAM_HYDRA_PAIRWISE_SALT" 32),
   ("IAM_HYDRA_SECRET_SYSTEM", deriveSecret prf passphrase "IAM_HYDRA_SECRET_SYSTEM" 32),
   ("IAM_HYDRA_PAIRWISE_SALT", deriveSecret prf passphrase "IAM_HYDRA_PAIRWISE_SALT" 32),
   ("ATHENA_CIAM_OAUTH_CLIENT_SECRET",
     deriveSecret prf passphrase "ATHENA_CIAM_OAUTH_CLIENT_SECRET" 32),
   ("ATHENA_IAM_OAUTH_CLIENT_SECRET",
     deriveSecret prf passphrase "ATHENA_IAM_OAUTH_CLIENT_SECRET" 32),
   ("PGADMIN_OAUTH_CLIENT_SECRET", deriveSecret prf passphrase "PGADMIN_OAUTH_CLIENT_SECRET" 32)]
  ++ (if includeSite then
        [("SITE_CIAM_CLIENT_SECRET", deriveSecret prf passphrase "SITE_CIAM_CLIENT_SECRET" 32),
         ("SITE_IAM_CLIENT_SECRET", deriveSecret prf passphrase "SITE_IAM_CLIENT_SECRET" 32)]
      else [])

/-- A lowercase hexadecimal character. -/
def isHexChar (c : Char) : Bool :=
  (decide ('0' ≤ c) && decide (c ≤ '9')) || (decide ('a' ≤ c) && decide (c ≤ 'f'))

theorem length_hexEncode : ∀ bs : List (Fin 256), (hexEncode bs).length = 2 * bs.length
  | [] => rfl
  | b :: t => by
    have ih := length_hexEncode t
    simp only [hexEncode, String.length, List.map_cons, List.flatten_cons,
      List.length_append, List.length_cons, byteHex, List.length_nil] at ih ⊢
    omega

theorem length_deriveSecret (prf : ByteKdf) (p n : String) (b : Nat) :
    (deriveSecret prf p n b).length = 2 * b := by
  simp [deriveSecret, pbkdf2Hex, length_hexEncode]

theorem hexDigit_hex : ∀ n < 16, isHexChar (hexDigit n) = true := by decide

theorem byteHex_hex (b : Fin 256) : ∀ c ∈ byteHex b, isHexChar c = true := by
  intro c hc
  simp only [byteHex, List.mem_cons, List.not_mem_nil, or_false] at hc
  rcases hc with h | h <;> subst h
  · exact hexDigit_hex _ (Nat.div_lt_of_lt_mul (by omega))
  · exact hexDigit_hex _ (Nat.mod_lt _ (by omega))

theorem hexEncode_chars (bs : List (Fin 256)) :
    ∀ c ∈ (hexEncode bs).data, isHexChar c = true := by
  intro c hc
  simp only [hexEncode, List.mem_flatten, List.mem_map] at hc
  obtain ⟨l, ⟨b, _, rfl⟩, hcl⟩ := hc
  exact byteHex_hex b c hcl

theorem deriveSecret_chars (prf : ByteKdf) (p n : String) (b : Nat) :
    ∀ c ∈ (deriveSecret prf p n b).data, isHexChar c = true :=
  hexEncode_chars _

/-! ### Context persistence and merge (src/index.ts) -/

/-- DNS record returned by the email provider (types.ts). -/
structure DnsRecord where
  type : String
  name : String
  value : String
  priority : Option Nat
  ttl : Option String
deriving DecidableEq, Repr

/-- A dynamically typed context field value, mirroring the JavaScript values the
merge loop in loadPreviousContext dispatches on: strings, numbers, booleans,
the resendDnsRecords array, the selectedSteps array, and object maps. -/
inductive JVal where
  | str (s : String)
  | num (n : Int)
  | flag (b : Bool)
  | records (rs : List DnsRecord)
  | steps (ss : List String)
  | table (m : List (String × String))
deriving DecidableEq

/-- typeof current === "string" && current !== "" (index.ts line 370). -/
def isNonEmptyStr : JVal → Bool
  | .str s => s ≠ ""
  | _ => false

/-- Array.isArray(current) && current.length > 0 (index.ts line 371). -/
def isNonEmptyArray : JVal → Bool
  | .records rs => !rs.isEmpty
  | .steps ss => !ss.isEmpty
  | _ => false

/-- The per-field branch of the merge loop in loadPreviousContext
(index.ts lines 364-376): skip undefined saved values, keep non-empty strings,
keep a non-empty resendDnsRecords array, always keep selectedSteps, otherwise
adopt the saved value. -/
def mergeField (key : String) (current : JVal) (saved : Option JVal) : JVal :=
  match saved with
  | none => current
  | some sv =>
    if isNonEmptyStr current then current
    else if key == "resendDnsRecords" && isNonEmptyArray current then current
    else if key == "selectedSteps" then current
    else sv

/-- index.ts loadPreviousContext (lines 357-380).  The file argument is none
when the settings file does not exist, some (.error e) when reading or JSON
parsing throws, and some (.ok raw) on success, raw being the parsed record. -/
def loadPreviousContext (ctx : List (String × JVal))
    (file : Option (Except String (String → Option JVal))) : List (String × JVal) :=
  match file with
  | none => ctx
  | some (.error _) => ctx
  | some (.ok raw) => ctx.map (fun kv => (kv.1, mergeField kv.1 kv.2 (raw kv.1)))

/-! ### Claims C1, C2, C6, C10 -/

/-- C1: deriveSecret is a pure, deterministic function of its arguments — the
same passphrase, name and byte count always yield the same hex string — and its
salt is the fixed application namespace concatenated with the secret's name, so
two different names always produce two different salts (the stated ground for
output independence). -/
theorem c1_deriveSecret_deterministic_salts_injective :
    (∀ (prf : ByteKdf) (p n : String) (b : Nat),
        deriveSecret prf p n b = deriveSecret prf p n b) ∧
    (∀ (prf : ByteKdf) (p n : String) (b : Nat),
        deriveSecret prf p n b = pbkdf2Hex prf p (saltFor n) ITERATIONS b) ∧
    (∀ n₁ n₂ : String, n₁ ≠ n₂ → saltFor n₁ ≠ saltFor n₂) := by
  refine ⟨fun _ _ _ _ => rfl, fun _ _ _ _ => rfl, ?_⟩
  intro n₁ n₂ hne he
  apply hne
  have h := congrArg String.data he
  simp only [saltFor, SALT_PREFIX, String.data_append] at h
  have h2 := List.append_cancel_left h
  cases n₁
  cases n₂
  exact congrArg String.mk h2

/-- Witness for C1: the salt-injectivity hypothesis discharged at the concrete
names "A" and "B". -/
theorem c1_witness : ("A" : String) ≠ "B" ∧ saltFor "A" ≠ saltFor "B" :=
  ⟨by decide, c1_deriveSecret_deterministic_salts_injective.2.2 "A" "B" (by decide)⟩

/-- C2: in the map produced by deriveAllSecrets, both cipher-class secrets are
strings of exactly 32 lowercase hexadecimal characters for every passphrase and
flag, and each cipher secret is half the length of the corresponding cookie
secret (16 requested bytes against 32). -/
theorem c2_cipher_secrets_are_32_hex_chars :
    ∀ (prf : ByteKdf) (p : String) (flag : Bool),
      (∀ pr ∈ deriveAllSecrets prf p flag,
          (pr.1 = "CIAM_KRATOS_SECRET_CIPHER" ∨ pr.1 = "IAM_KRATOS_SECRET_CIPHER") →
            pr.2.length = 32 ∧ ∀ c ∈ pr.2.data, isHexChar c = true) ∧
      (∀ s s', (deriveAllSecrets prf p flag).lookup "CIAM_KRATOS_SECRET_CIPHER" = some s →
          (deriveAllSecrets prf p flag).lookup "CIAM_KRATOS_SECRET_COOKIE" = some s' →
          2 * s.length = s'.length) ∧
      (∀ s s', (deriveAllSecrets prf p flag).lookup "IAM_KRATOS_SECRET_CIPHER" = some s →
          (deriveAllSecrets prf p flag).lookup "IAM_KRATOS_SECRET_COOKIE" = some s' →
          2 * s.length = s'.length) := by
  intro prf p flag
  have hcip : ∀ n : String, (deriveSecret prf p n 16).length = 32 := by
    intro n; simp [length_deriveSecret]
  have hcook : ∀ n : String, (deriveSecret prf p n 32).length = 64 := by
    intro n; simp [length_deriveSecret]
  have hval : ∀ pr ∈ deriveAllSecrets prf p flag,
      (pr.1 = "CIAM_KRATOS_SECRET_CIPHER" ∨ pr.1 = "IAM_KRATOS_SECRET_CIPHER") →
      pr.2 = deriveSecret prf p pr.1 16 := by
    intro pr hpr hnm
    cases flag
    · simp only [deriveAllSecrets, Bool.false_eq_true, if_false, List.append_nil,
        List.mem_cons, List.not_mem_nil, or_false] at hpr
      rcases hpr with rfl | rfl | rfl | rfl | rfl | rfl | rfl | rfl | rfl | rfl | rfl <;>
        first
          | rfl
          | (exact absurd hnm (by simp))
    · simp only [deriveAllSecrets, if_true, List.mem_append, List.mem_cons,
        List.not_mem_nil, or_false] at hpr
      rcases hpr with (rfl | rfl | rfl | rfl | rfl | rfl | rfl | rfl | rfl | rfl | rfl) |
          (rfl | rfl) <;>
        first
          | rfl
          | (exact absurd hnm (by simp))
  refine ⟨?_, ?_, ?_⟩
  · intro pr hpr hname
    have h2 : pr.2 = deriveSecret prf p pr.1 16 := hval pr hpr hname
    rw [h2]
    exact ⟨hcip _, deriveSecret_chars prf p _ 16⟩
  · intro s s' hs hs'
    have e1 : (deriveAllSecrets prf p flag).lookup "CIAM_KRATOS_SECRET_CIPHER" =
        some (deriveSecret prf p "CIAM_KRATOS_SECRET_CIPHER" 16) := by
      cases flag <;> rfl
    have e2 : (deriveAllSecrets prf p flag).lookup "CIAM_KRATOS_SECRET_COOKIE" =
        some (deriveSecret prf p "CIAM_KRATOS_SECRET_COOKIE" 32) := by
      cases flag <;> rfl
    rw [e1, Option.some.injEq] at hs
    rw [e2, Option.some.injEq] at hs'
    subst hs
    subst hs'
    rw [hcip, hcook]
  · intro s s' hs hs'
    have e1 : (deriveAllSecrets prf p flag).lookup "IAM_KRATOS_SECRET_CIPHER" =
        some (deriveSecret prf p "IAM_KRATOS_SECRET_CIPHER" 16) := by
      cases flag <;> rfl
    have e2 : (deriveAllSecrets prf p flag).lookup "IAM_KRATOS_SECRET_COOKIE" =
        some (deriveSecret prf p "IAM_KRATOS_SECRET_COOKIE" 32) := by
      cases flag <;> rfl
    rw [e1, Option.some.injEq] at hs
    rw [e2, Option.some.injEq] at hs'
    subst hs
    subst hs'
    rw [hcip, hcook]

/-- Witness for C2: the CIAM cipher entry of the map at a concrete byte family,
passphrase and flag is 32 characters long. -/
theorem c2_witness :
    (("CIAM_KRATOS_SECRET_CIPHER",
        deriveSecret (fun _ _ _ _ => (0 : Fin 256)) "pw" "CIAM_KRATOS_SECRET_CIPHER" 16) ∈
      deriveAllSecrets (fun _ _ _ _ => (0 : Fin 256)) "pw" true) ∧
    (deriveSecret (fun _ _ _ _ => (0 : Fin 256)) "pw" "CIAM_KRATOS_SECRET_CIPHER" 16).length
      = 32 := by
  have h := (c2_cipher_secrets_are_32_hex_chars (fun _ _ _ _ => (0 : Fin 256)) "pw" true).1
    ("CIAM_KRATOS_SECRET_CIPHER",
      deriveSecret (fun _ _ _ _ => (0 : Fin 256)) "pw" "CIAM_KRATOS_SECRET_CIPHER" 16)
  refine ⟨by simp [deriveAllSecrets], ?_⟩
  exact (h (by simp [deriveAllSecrets]) (Or.inl rfl)).1

/-- C10: loadPreviousContext never throws and never partially mutates — when the
settings file is absent it returns the context unchanged, and when reading or
parsing fails the error is swallowed and the context is returned exactly as it
was. -/
theorem c10_load_swallows_missing_and_corrupt_file :
    ∀ (ctx : List (String × JVal)),
      loadPreviousContext ctx none = ctx ∧
      (∀ e : String, loadPreviousContext ctx (some (.error e)) = ctx) := by
  intro ctx
  exact ⟨rfl, fun _ => rfl⟩

/-- C6: the merge adopts a saved value only into unpopulated fields — a
non-empty string field is left unchanged, an empty string field adopts the
saved value, a non-empty resendDnsRecords array is left unchanged, an empty one
adopts the saved value, an undefined saved value changes nothing — and the
step-selection field always keeps the current run's value. -/
theorem c6_merge_fills_only_empty_fields :
    (∀ (key : String) (sv : Option JVal) (s : String), s ≠ "" →
        mergeField key (.str s) sv = .str s) ∧
    (∀ (key : String) (v : JVal), key ≠ "selectedSteps" →
        mergeField key (.str "") (some v) = v) ∧
    (∀ (sv : Option JVal) (rs : List DnsRecord), rs ≠ [] →
        mergeField "resendDnsRecords" (.records rs) sv = .records rs) ∧
    (∀ v : JVal, mergeField "resendDnsRecords" (.records []) (some v) = v) ∧
    (∀ (cur : JVal) (sv : Option JVal), mergeField "selectedSteps" cur sv = cur) ∧
    (∀ (key : String) (cur : JVal), mergeField key cur none = cur) ∧
    (∀ (ctx : List (String × JVal)) (raw : String → Option JVal),
        loadPreviousContext ctx (some (.ok raw)) =
          ctx.map (fun kv => (kv.1, mergeField kv.1 kv.2 (raw kv.1)))) := by
  refine ⟨?_, ?_, ?_, ?_, ?_, ?_, ?_⟩
  · intro key sv s hs
    cases sv with
    | none => rfl
    | some v => simp [mergeField, isNonEmptyStr, hs]
  · intro key v hk
    have hk' : (key == "selectedSteps") = false := by
      simp [hk]
    simp [mergeField, isNonEmptyStr, isNonEmptyArray, hk']
  · intro sv rs hrs
    cases sv with
    | none => rfl
    | some v =>
      simp [mergeField, isNonEmptyStr, isNonEmptyArray, List.isEmpty_iff, hrs]
  · intro v
    simp [mergeField, isNonEmptyStr, isNonEmptyArray]
  · intro cur sv
    cases sv with
    | none => rfl
    | some v =>
      simp only [mergeField]
      by_cases h1 : isNonEmptyStr cur = true
      · simp [h1]
      · by_cases h2 : isNonEmptyArray cur = true <;> simp [h1, h2]
  · intro key cur
    rfl
  · intro ctx raw
    rfl

/-- Witness for C6: the merge clauses applied at concrete fields — a populated
domain survives, an empty passphrase adopts the saved value. -/
theorem c6_witness :
    ("example.com" : String) ≠ "" ∧
    mergeField "domain" (.str "example.com") (some (.str "old.com")) = .str "example.com" ∧
    ("passphrase" : String) ≠ "selectedSteps" ∧
    mergeField "passphrase" (.str "") (some (.str "hunter22")) = .str "hunter22" :=
  ⟨by decide,
   c6_merge_fills_only_empty_fields.1 "domain" (some (.str "old.com")) "example.com" (by decide),
   by decide,
   c6_merge_fills_only_empty_fields.2.1 "passphrase" (.str "hunter22") (by decide)⟩

/-! ### String containment, as used by the error-body checks -/

/-- Whether the first list is an initial segment of the second. -/
def startsWithChars : List Char → List Char → Bool
  | [], _ => true
  | _ :: _, [] => false
  | p :: ps, c :: cs => p == c && startsWithChars ps cs

/-- Whether the first list occurs contiguously inside the second. -/
def hasSubChars (pat : List Char) : List Char → Bool
  | [] => startsWithChars pat []
  | c :: cs => startsWithChars pat (c :: cs) || hasSubChars pat cs

/-- JavaScript String.prototype.includes: substring containment. -/
def strContains (s pat : String) : Bool := hasSubChars pat.data s.data

/-! ### Reserved-IP reconciliation (src/steps/droplet.ts, src/lib/digitalocean.ts) -/

/-- An entry of the reserved-IP list (digitalocean.ts listReservedIps): the IP,
its region slug, and the id of the droplet it is attached to, if any. -/
structure ReservedIpInfo where
  ip : String
  region : String
  dropletId : Option Nat
deriving DecidableEq, Repr

/-- A provider call issued by the reconciliation: creating a reserved IP in a
region, or assigning a reserved IP to a droplet. -/
inductive RIpEvent where
  | created (ip : String) (region : String)
  | assigned (ip : String) (dropletId : Nat)
deriving DecidableEq, Repr

/-- The choices offered by handleReservedIp's prompt (droplet.ts lines 296-303):
the unassigned reserved IPs, then the create-new sentinel. -/
def reservedIpChoices (reservedIps : List ReservedIpInfo) : List String :=
  (reservedIps.filter (fun r => r.dropletId == none)).map (fun r => r.ip) ++ ["__new__"]

/-- droplet.ts handleReservedIp (lines 279-330).  Interactive and network inputs
are parameters: chosen is the select prompt's answer, freshIp the IP returned by
createReservedIp, region the resolved droplet region.  Returns the IP recorded
into ctx.reservedIp and ctx.dropletIp, with the provider calls made. -/
def handleReservedIp (reservedIps : List ReservedIpInfo) (dropletId : Nat)
    (chosen freshIp region : String) : String × List RIpEvent :=
  match reservedIps.find? (fun r => r.dropletId == some dropletId) with
  | some r => (r.ip, [])
  | none =>
    if chosen == "__new__" then
      (freshIp, [.created freshIp region, .assigned freshIp dropletId])
    else
      (chosen, [.assigned chosen dropletId])

/-- Effect of one provider call on the reserved-IP list: createReservedIp adds a
fresh unassigned entry, assignReservedIp attaches the named IP to the droplet. -/
def applyRIpEvent (l : List ReservedIpInfo) : RIpEvent → List ReservedIpInfo
  | .created ip region => l ++ [⟨ip, region, none⟩]
  | .assigned ip d =>
    l.map (fun r => if r.ip == ip then { r with dropletId := some d } else r)

/-- The reserved-IP list after a sequence of provider calls. -/
def applyRIpEvents (l : List ReservedIpInfo) (es : List RIpEvent) : List ReservedIpInfo :=
  es.foldl applyRIpEvent l

/-- digitalocean.ts assignReservedIp (lines 231-244), as a function of the
provider's HTTP response: ok responses and non-ok bodies containing
"is already assigned" return normally, any other non-ok response raises an
error embedding the raw body. -/
def assignReservedIp (ip : String) (ok : Bool) (body : String) : Except String Unit :=
  if ok then .ok ()
  else if strContains body "is already assigned" then .ok ()
  else .error ("Failed to assign reserved IP " ++ ip ++ ": " ++ body)

theorem find?_attached_after_assign (l : List ReservedIpInfo) (d : Nat) (x : String)
    (h : l.find? (fun r => r.dropletId == some d) = none)
    (hx : ∃ r ∈ l, r.ip = x) :
    ∃ r, (l.map (fun r => if r.ip == x then { r with dropletId := some d } else r)).find?
        (fun r => r.dropletId == some d) = some r ∧ r.ip = x := by
  induction l with
  | nil => simp at hx
  | cons a t ih =>
    rw [List.find?_eq_none] at h
    have ha := h a (List.mem_cons_self a t)
    have ht : t.find? (fun r => r.dropletId == some d) = none :=
      List.find?_eq_none.mpr (fun x hx2 => h x (List.mem_cons_of_mem a hx2))
    by_cases hax : a.ip = x
    · refine ⟨{ a with dropletId := some d }, ?_, hax⟩
      simp [hax, List.find?_cons_of_pos]
    · have ha' : (if a.ip == x then { a with dropletId := some d } else a) = a := by
        simp [hax]
      obtain ⟨r, hr, hrx⟩ := ih ht (by
        rcases hx with ⟨r, hr, hrx⟩
        rcases List.mem_cons.mp hr with rfl | hmem
        · exact absurd hrx hax
        · exact ⟨r, hmem, hrx⟩)
      refine ⟨r, ?_, hrx⟩
      rw [List.map_cons, ha', List.find?_cons_of_neg, hr]
      simpa using ha

theorem find?_none_after_create (l : List ReservedIpInfo) (d : Nat) (e : ReservedIpInfo)
    (h : l.find? (fun r => r.dropletId == some d) = none)
    (he : e.dropletId = none) :
    (l ++ [e]).find? (fun r => r.dropletId == some d) = none := by
  rw [List.find?_append, h]
  simp [he]

/-- C3: if the listed reserved IPs contain an entry attached to the target
droplet, reconciliation records that entry's IP and issues no create or assign
call; and running reconciliation twice in a row (with the second run seeing the
provider state produced by the first) returns the same IP the second time while
issuing no provider call at all. -/
theorem c3_reserved_ip_reconciliation_idempotent :
    ∀ (l : List ReservedIpInfo) (d : Nat) (chosen freshIp region : String)
      (chosen₂ freshIp₂ region₂ : String),
      (∀ r, l.find? (fun x => x.dropletId == some d) = some r →
        handleReservedIp l d chosen freshIp region = (r.ip, [])) ∧
      (((l.find? (fun x => x.dropletId == some d)).isSome ∨
          chosen = "__new__" ∨ (∃ r ∈ l, r.ip = chosen ∧ r.dropletId = none)) →
        handleReservedIp
            (applyRIpEvents l (handleReservedIp l d chosen freshIp region).2)
            d chosen₂ freshIp₂ region₂ =
          ((handleReservedIp l d chosen freshIp region).1, [])) := by
  intro l d chosen freshIp region chosen₂ freshIp₂ region₂
  constructor
  · intro r hr
    simp [handleReservedIp, hr]
  · intro hvalid
    cases hfind : l.find? (fun x => x.dropletId == some d) with
    | some r =>
      simp [handleReservedIp, hfind, applyRIpEvents]
    | none =>
      rcases hvalid with hs | hnew | hold
      · rw [hfind] at hs
        simp at hs
      · subst hnew
        simp only [handleReservedIp, hfind]
        rw [if_pos (by simp)]
        simp only [applyRIpEvents, List.foldl_cons, List.foldl_nil, applyRIpEvent]
        have h1 := find?_none_after_create l d ⟨freshIp, region, none⟩ hfind rfl
        obtain ⟨r, hr, hrx⟩ := find?_attached_after_assign (l ++ [⟨freshIp, region, none⟩])
          d freshIp h1 ⟨⟨freshIp, region, none⟩, by simp, rfl⟩
        simp only [handleReservedIp, hr, hrx]
      · obtain ⟨r0, hr0, hr0x, _⟩ := hold
        have hne : (chosen == "__new__") = false ∨ (chosen == "__new__") = true :=
          Bool.eq_false_or_eq_true _ |>.symm.imp id id
        by_cases hc : chosen = "__new__"
        · subst hc
          simp only [handleReservedIp, hfind]
          rw [if_pos (by simp)]
          simp only [applyRIpEvents, List.foldl_cons, List.foldl_nil, applyRIpEvent]
          have h1 := find?_none_after_create l d ⟨freshIp, region, none⟩ hfind rfl
          obtain ⟨r, hr, hrx⟩ := find?_attached_after_assign (l ++ [⟨freshIp, region, none⟩])
            d freshIp h1 ⟨⟨freshIp, region, none⟩, by simp, rfl⟩
          simp only [handleReservedIp, hr, hrx]
        · simp only [handleReservedIp, hfind]
          rw [if_neg (by simpa using hc)]
          simp only [applyRIpEvents, List.foldl_cons, List.foldl_nil, applyRIpEvent]
          obtain ⟨r, hr, hrx⟩ := find?_attached_after_assign l d chosen hfind
            ⟨r0, hr0, hr0x⟩
          simp only [handleReservedIp, hr, hrx]

/-- Witness for C3: both conjuncts applied at a concrete one-entry list already
attached to droplet 7. -/
theorem c3_witness :
    ([⟨"1.2.3.4", "nyc1", some 7⟩] : List ReservedIpInfo).find?
        (fun x => x.dropletId == some 7) =
      some (⟨"1.2.3.4", "nyc1", some 7⟩ : ReservedIpInfo) ∧
    handleReservedIp [⟨"1.2.3.4", "nyc1", some 7⟩] 7 "x" "y" "z" = ("1.2.3.4", []) ∧
    handleReservedIp
        (applyRIpEvents [⟨"1.2.3.4", "nyc1", some 7⟩]
          (handleReservedIp [⟨"1.2.3.4", "nyc1", some 7⟩] 7 "x" "y" "z").2)
        7 "a" "b" "c" = ("1.2.3.4", []) := by
  refine ⟨by decide, ?_, ?_⟩
  · exact (c3_reserved_ip_reconciliation_idempotent
      [⟨"1.2.3.4", "nyc1", some 7⟩] 7 "x" "y" "z" "a" "b" "c").1
      (⟨"1.2.3.4", "nyc1", some 7⟩ : ReservedIpInfo) (by decide)
  · exact (c3_reserved_ip_reconciliation_idempotent
      [⟨"1.2.3.4", "nyc1", some 7⟩] 7 "x" "y" "z" "a" "b" "c").2 (Or.inl (by decide))

/-- C4: the attachment candidates offered are exactly the unassigned reserved
IPs plus the create-new sentinel, and whenever the prompt answer is one of those
candidates, every assign call the reconciliation issues targets the requested
droplet and names either an IP that was unassigned in the listing or the
freshly created IP. -/
theorem c4_never_reassigns_assigned_elsewhere :
    ∀ (l : List ReservedIpInfo) (d : Nat) (chosen freshIp region : String),
      chosen ∈ reservedIpChoices l →
      (∀ ip d', RIpEvent.assigned ip d' ∈ (handleReservedIp l d chosen freshIp region).2 →
        d' = d ∧
          ((∃ r ∈ l, r.ip = ip ∧ r.dropletId = none) ∨
            (ip = freshIp ∧
              RIpEvent.created freshIp region ∈
                (handleReservedIp l d chosen freshIp region).2))) := by
  intro l d chosen freshIp region hchoice ip d' hmem
  simp only [reservedIpChoices, List.mem_append, List.mem_map, List.mem_filter,
    List.mem_singleton] at hchoice
  cases hfind : l.find? (fun x => x.dropletId == some d) with
  | some r =>
    simp [handleReservedIp, hfind] at hmem
  | none =>
    rcases hchoice with ⟨r, ⟨hr, hrd⟩, rfl⟩ | rfl
    · have hne : (r.ip == "__new__") = false ∨ (r.ip == "__new__") = true :=
        (Bool.eq_false_or_eq_true _).symm.imp id id
      by_cases hc : r.ip = "__new__"
      · simp only [handleReservedIp, hfind] at hmem
        rw [if_pos (by simp [hc])] at hmem
        simp only [List.mem_cons, List.not_mem_nil, or_false] at hmem
        rcases hmem with h | h
        · exact absurd h (by simp)
        · obtain ⟨rfl, rfl⟩ := RIpEvent.assigned.inj h
          exact ⟨rfl, Or.inr ⟨rfl, by
            simp [handleReservedIp, hfind, if_pos, hc]⟩⟩
      · simp only [handleReservedIp, hfind] at hmem
        rw [if_neg (by simpa using hc)] at hmem
        simp only [List.mem_cons, List.not_mem_nil, or_false] at hmem
        obtain ⟨rfl, rfl⟩ := RIpEvent.assigned.inj hmem
        refine ⟨rfl, Or.inl ⟨r, hr, rfl, by simpa using hrd⟩⟩
    · simp only [handleReservedIp, hfind] at hmem
      rw [if_pos (by simp)] at hmem
      simp only [List.mem_cons, List.not_mem_nil, or_false] at hmem
      rcases hmem with h | h
      · exact absurd h (by simp)
      · obtain ⟨rfl, rfl⟩ := RIpEvent.assigned.inj h
        refine ⟨rfl, Or.inr ⟨rfl, ?_⟩⟩
        simp only [handleReservedIp, hfind]
        rw [if_pos (by simp)]
        simp

/-- Witness for C4: the hypothesis and conclusion at a concrete listing with one
IP assigned elsewhere and one unassigned, choosing the unassigned one. -/
theorem c4_witness :
    ("5.6.7.8" : String) ∈
        reservedIpChoices [⟨"1.2.3.4", "nyc1", some 9⟩, ⟨"5.6.7.8", "nyc1", none⟩] ∧
    (∀ ip d', RIpEvent.assigned ip d' ∈
        (handleReservedIp [⟨"1.2.3.4", "nyc1", some 9⟩, ⟨"5.6.7.8", "nyc1", none⟩]
          7 "5.6.7.8" "f" "g").2 →
      d' = 7 ∧
        ((∃ r ∈ [⟨"1.2.3.4", "nyc1", some 9⟩, (⟨"5.6.7.8", "nyc1", none⟩ : ReservedIpInfo)],
            r.ip = ip ∧ r.dropletId = none) ∨
          (ip = "f" ∧
            RIpEvent.created "f" "g" ∈
              (handleReservedIp [⟨"1.2.3.4", "nyc1", some 9⟩, ⟨"5.6.7.8", "nyc1", none⟩]
                7 "5.6.7.8" "f" "g").2))) :=
  ⟨by decide,
   c4_never_reassigns_assigned_elsewhere
     [⟨"1.2.3.4", "nyc1", some 9⟩, ⟨"5.6.7.8", "nyc1", none⟩] 7 "5.6.7.8" "f" "g"
     (by decide)⟩

/-- C5: assignReservedIp returns normally on an OK response, returns normally on
a non-OK response whose body contains the already-assigned indication, and for
every other non-OK response raises an error whose text embeds the provider's raw
body. -/
theorem c5_assign_already_assigned_is_success :
    ∀ (ip : String) (ok : Bool) (body : String),
      (ok = true → assignReservedIp ip ok body = .ok ()) ∧
      (ok = false → strContains body "is already assigned" = true →
        assignReservedIp ip ok body = .ok ()) ∧
      (ok = false → strContains body "is already assigned" = false →
        assignReservedIp ip ok body =
          .error ("Failed to assign reserved IP " ++ ip ++ ": " ++ body) ∧
        ∃ pre, "Failed to assign reserved IP " ++ ip ++ ": " ++ body = pre ++ body) := by
  intro ip ok body
  refine ⟨?_, ?_, ?_⟩
  · intro h; subst h; rfl
  · intro h hc; subst h; simp [assignReservedIp, hc]
  · intro h hc
    subst h
    refine ⟨by simp [assignReservedIp, hc], ⟨"Failed to assign reserved IP " ++ ip ++ ": ", ?_⟩⟩
    simp [String.append_assoc]

/-- Witness for C5: all three response shapes at concrete inputs. -/
theorem c5_witness :
    assignReservedIp "1.2.3.4" true "" = .ok () ∧
    assignReservedIp "1.2.3.4" false "ip is already assigned to another Droplet" = .ok () ∧
    assignReservedIp "1.2.3.4" false "quota exceeded" =
      .error ("Failed to assign reserved IP " ++ "1.2.3.4" ++ ": " ++ "quota exceeded") := by
  refine ⟨?_, ?_, ?_⟩
  · exact (c5_assign_already_assigned_is_success "1.2.3.4" true "").1 rfl
  · exact (c5_assign_already_assigned_is_success "1.2.3.4" false
      "ip is already assigned to another Droplet").2.1 rfl (by decide)
  · exact ((c5_assign_already_assigned_is_success "1.2.3.4" false "quota exceeded").2.2
      rfl (by decide)).1

/-! ### Neon database creation with conflict retry (src/steps/neon.ts) -/

/-- An HTTP response to the database-creation call: ok flag and body text. -/
structure DbResp where
  ok : Bool
  body : String
deriving DecidableEq, Repr

/-- The fixed list of logical database names (neon.ts line 7). -/
def DB_NAMES : List String := ["ciam_kratos", "ciam_hydra", "iam_kratos", "iam_hydra"]

/-- A creation response that triggers a retry (neon.ts line 225): non-ok with a
body containing "conflicting operations". -/
def isConflict (r : DbResp) : Bool := !r.ok && strContains r.body "conflicting operations"

/-- The retry loop of neon.ts run (lines 213-233), with the provider's responses
as an oracle indexed by attempt number.  Returns the number of creation attempts
made and the list of backoff delays slept (milliseconds), or the thrown error.
The fuel argument equals 5 minus the starting attempt index; the loop guard
attempt < 4 keeps fuel positive, so the fuel-0 branch is unreachable from
createDatabase. -/
def createDbGo (dbName : String) (resp : Nat → DbResp) :
    Nat → Nat → Except String (Nat × List Nat)
  | _, 0 => .error ("Failed to create database " ++ dbName)
  | attempt, fuel + 1 =>
    let r := resp attempt
    if r.ok then .ok (attempt + 1, [])
    else if strContains r.body "conflicting operations" && decide (attempt < 4) then
      match createDbGo dbName resp (attempt + 1) fuel with
      | .ok (n, ds) => .ok (n, 3000 * (attempt + 1) :: ds)
      | .error e => .error e
    else .error ("Failed to create database " ++ dbName ++ ": " ++ r.body)

/-- The per-database body of neon.ts run (lines 207-235): skip creation when the
name is among the existing databases, else run the bounded retry loop from
attempt 0 with a budget of 5 attempts. -/
def createDatabase (dbName : String) (existing : List String) (resp : Nat → DbResp) :
    Except String (Nat × List Nat) :=
  if existing.contains dbName then .ok (0, [])
  else createDbGo dbName resp 0 5

theorem isConflict_spec {r : DbResp} (h : isConflict r = true) :
    r.ok = false ∧ strContains r.body "conflicting operations" = true := by
  simp only [isConflict, Bool.and_eq_true, Bool.not_eq_true'] at h
  exact h

/-- C8: the database step skips creation for an existing database; a first
response that is neither ok nor a conflict raises an error embedding the body
with no retry; when the first k responses are conflicts and response k is ok
(k ≤ 4) the database is created after exactly k+1 attempts with linearly
increasing delays 3000*(i+1); and five consecutive conflicts exhaust the budget
and raise an error embedding the last body. -/
theorem c8_database_create_conflict_retry :
    ∀ (dbName : String) (existing : List String) (resp : Nat → DbResp),
      (existing.contains dbName = true →
        createDatabase dbName existing resp = .ok (0, [])) ∧
      (existing.contains dbName = false →
        ((resp 0).ok = false →
          strContains (resp 0).body "conflicting operations" = false →
          createDatabase dbName existing resp =
            .error ("Failed to create database " ++ dbName ++ ": " ++ (resp 0).body)) ∧
        (∀ k, k ≤ 4 → (∀ i < k, isConflict (resp i) = true) → (resp k).ok = true →
          createDatabase dbName existing resp =
            .ok (k + 1, (List.range k).map (fun i => 3000 * (i + 1)))) ∧
        ((∀ i < 5, isConflict (resp i) = true) →
          createDatabase dbName existing resp =
            .error ("Failed to create database " ++ dbName ++ ": " ++ (resp 4).body))) := by
  intro dbName existing resp
  constructor
  · intro h
    have h2 : dbName ∈ existing := by simpa using h
    simp [createDatabase, h2]
  · intro hex0
    have hex : dbName ∉ existing := by simpa using hex0
    refine ⟨?_, ?_, ?_⟩
    · intro ho hc
      simp [createDatabase, hex, createDbGo, ho, hc]
    · intro k hk hconf hok
      interval_cases k
      · simp [createDatabase, hex, createDbGo, hok]
      · obtain ⟨o0, c0⟩ := isConflict_spec (hconf 0 (by omega))
        simp [createDatabase, hex, createDbGo, o0, c0, hok, List.range_succ]
      · obtain ⟨o0, c0⟩ := isConflict_spec (hconf 0 (by omega))
        obtain ⟨o1, c1⟩ := isConflict_spec (hconf 1 (by omega))
        simp [createDatabase, hex, createDbGo, o0, c0, o1, c1, hok, List.range_succ]
      · obtain ⟨o0, c0⟩ := isConflict_spec (hconf 0 (by omega))
        obtain ⟨o1, c1⟩ := isConflict_spec (hconf 1 (by omega))
        obtain ⟨o2, c2⟩ := isConflict_spec (hconf 2 (by omega))
        simp [createDatabase, hex, createDbGo, o0, c0, o1, c1, o2, c2, hok,
          List.range_succ]
      · obtain ⟨o0, c0⟩ := isConflict_spec (hconf 0 (by omega))
        obtain ⟨o1, c1⟩ := isConflict_spec (hconf 1 (by omega))
        obtain ⟨o2, c2⟩ := isConflict_spec (hconf 2 (by omega))
        obtain ⟨o3, c3⟩ := isConflict_spec (hconf 3 (by omega))
        simp [createDatabase, hex, createDbGo, o0, c0, o1, c1, o2, c2, o3, c3, hok,
          List.range_succ]
    · intro hconf
      obtain ⟨o0, c0⟩ := isConflict_spec (hconf 0 (by omega))
      obtain ⟨o1, c1⟩ := isConflict_spec (hconf 1 (by omega))
      obtain ⟨o2, c2⟩ := isConflict_spec (hconf 2 (by omega))
      obtain ⟨o3, c3⟩ := isConflict_spec (hconf 3 (by omega))
      obtain ⟨o4, c4⟩ := isConflict_spec (hconf 4 (by omega))
      simp [createDatabase, hex, createDbGo, o0, c0, o1, c1, o2, c2, o3, c3, o4, c4]

/-- Witness for C8, the specified race scenario: conflicts on attempts 1 and 2,
success on attempt 3, for a database not yet existing — created after exactly 3
attempts with delays 3000 and 6000. -/
theorem c8_witness :
    ([] : List String).contains "ciam_kratos" = false ∧
    createDatabase "ciam_kratos" []
        (fun i => if i < 2 then ⟨false, "project has conflicting operations"⟩
                  else ⟨true, ""⟩) =
      .ok (3, [3000, 6000]) := by
  refine ⟨by decide, ?_⟩
  have h := ((c8_database_create_conflict_retry "ciam_kratos" []
      (fun i => if i < 2 then ⟨false, "project has conflicting operations"⟩
                else ⟨true, ""⟩)).2 (by decide)).2.1 2 (by omega)
    (by intro i hi; interval_cases i <;> decide) (by decide)
  rw [h]
  rfl

/-! ### Bounded polling loops (src/steps/droplet.ts, src/steps/neon.ts) -/

/-- The SSH polling loop of createDroplet (droplet.ts lines 239-248), with the
ssh exit codes as an oracle.  Returns whether SSH answered, the number of ssh
attempts made, and the 5000 ms sleeps performed.  Exhaustion falls through to a
warning, never an error. -/
def sshPollGo (exit : Nat → Int) : Nat → Nat → Bool × Nat × List Nat
  | i, 0 => (false, i, [])
  | i, fuel + 1 =>
    if exit i = 0 then (true, i + 1, [])
    else
      let rest := sshPollGo exit (i + 1) fuel
      (rest.1, rest.2.1, 5000 :: rest.2.2)

/-- droplet.ts createDroplet SSH wait: up to 30 attempts from attempt 0. -/
def sshPoll (exit : Nat → Int) : Bool × Nat × List Nat := sshPollGo exit 0 30

/-- The tail of createDroplet after the droplet exists (droplet.ts lines
229-248): polls SSH and returns the droplet id whether or not SSH ever
answered. -/
def createDropletFinish (dropletId : Nat) (exit : Nat → Int) :
    Nat × Bool × Nat × List Nat :=
  (dropletId, sshPoll exit)

/-- Outcome of one iteration of waitForProject's poll: none when the operations
fetch failed (loop breaks), some running otherwise. -/
def OpsResp : Type := Nat → Option Bool

/-- neon.ts waitForProject (lines 296-314): poll the operations list until no
operation is running, at most 20 times, sleeping 2000 ms between polls; a
failed fetch breaks out; exhausting the budget returns normally. -/
def waitForProjectGo (resp : OpsResp) : Nat → Nat → Nat × List Nat
  | i, 0 => (i, [])
  | i, fuel + 1 =>
    match resp i with
    | none => (i + 1, [])
    | some running =>
      if running then
        let rest := waitForProjectGo resp (i + 1) fuel
        (rest.1, 2000 :: rest.2)
      else (i + 1, [])

/-- neon.ts waitForProject from attempt 0 with its budget of 20. -/
def waitForProject (resp : OpsResp) : Nat × List Nat := waitForProjectGo resp 0 20

theorem sshPollGo_bound (exit : Nat → Int) :
    ∀ fuel i, (sshPollGo exit i fuel).2.1 ≤ i + fuel ∧
      (∀ d ∈ (sshPollGo exit i fuel).2.2, d = 5000) ∧
      ((sshPollGo exit i fuel).1 = false → (sshPollGo exit i fuel).2.1 = i + fuel) := by
  intro fuel
  induction fuel with
  | zero => intro i; simp [sshPollGo]
  | succ f ih =>
    intro i
    obtain ⟨ihb, ihd, ihf⟩ := ih (i + 1)
    by_cases h : exit i = 0
    · have e : sshPollGo exit i (f + 1) = (true, i + 1, []) := by
        simp [sshPollGo, h]
      rw [e]
      dsimp only
      exact ⟨by omega, by simp, by simp⟩
    · have e : sshPollGo exit i (f + 1) =
          ((sshPollGo exit (i + 1) f).1, (sshPollGo exit (i + 1) f).2.1,
            5000 :: (sshPollGo exit (i + 1) f).2.2) := by
        simp [sshPollGo, h]
      rw [e]
      dsimp only
      refine ⟨by omega, ?_, fun hb => by have := ihf hb; omega⟩
      intro d hd
      rcases List.mem_cons.mp hd with rfl | hd2
      · rfl
      · exact ihd d hd2

theorem waitForProjectGo_bound (resp : OpsResp) :
    ∀ fuel i, (waitForProjectGo resp i fuel).1 ≤ i + fuel ∧
      ∀ d ∈ (waitForProjectGo resp i fuel).2, d = 2000 := by
  intro fuel
  induction fuel with
  | zero => intro i; simp [waitForProjectGo]
  | succ f ih =>
    intro i
    obtain ⟨ihb, ihd⟩ := ih (i + 1)
    cases hr : resp i with
    | none =>
      have e : waitForProjectGo resp i (f + 1) = (i + 1, []) := by
        simp [waitForProjectGo, hr]
      rw [e]
      exact ⟨by omega, by simp⟩
    | some running =>
      cases running with
      | false =>
        have e : waitForProjectGo resp i (f + 1) = (i + 1, []) := by
          simp [waitForProjectGo, hr]
        rw [e]
        dsimp only
        exact ⟨by omega, by simp⟩
      | true =>
        have e : waitForProjectGo resp i (f + 1) =
            ((waitForProjectGo resp (i + 1) f).1,
              2000 :: (waitForProjectGo resp (i + 1) f).2) := by
          simp [waitForProjectGo, hr]
        rw [e]
        dsimp only
        refine ⟨by omega, ?_⟩
        intro d hd
        rcases List.mem_cons.mp hd with rfl | hd2
        · rfl
        · exact ihd d hd2

/-- C9: both polling loops are bounded and non-fatal.  SSH polling makes at most
30 attempts, every sleep is 5000 ms, exhaustion makes exactly 30 attempts, and
createDroplet still returns the droplet id when SSH never answered.  Operation
polling makes at most 20 attempts, every sleep is 2000 ms, and always returns
normally — in particular it makes exactly 20 attempts and returns when every
poll reports running. -/
theorem c9_polling_loops_bounded_nonfatal :
    ∀ (exit : Nat → Int) (resp : OpsResp) (dropletId : Nat),
      ((sshPoll exit).2.1 ≤ 30 ∧
        (∀ d ∈ (sshPoll exit).2.2, d = 5000) ∧
        ((sshPoll exit).1 = false → (sshPoll exit).2.1 = 30) ∧
        ((sshPoll exit).1 = false →
          (createDropletFinish dropletId exit).1 = dropletId)) ∧
      ((waitForProject resp).1 ≤ 20 ∧
        (∀ d ∈ (waitForProject resp).2, d = 2000) ∧
        ((∀ i, resp i = some true) → waitForProject resp = (20, List.replicate 20 2000))) := by
  intro exit resp dropletId
  have hs := sshPollGo_bound exit 30 0
  have hw := waitForProjectGo_bound resp 20 0
  refine ⟨⟨by simpa [sshPoll] using hs.1, by simpa [sshPoll] using hs.2.1,
      by simpa [sshPoll] using hs.2.2, fun _ => rfl⟩,
    by simpa [waitForProject] using hw.1, by simpa [waitForProject] using hw.2, ?_⟩
  intro hall
  have key : ∀ fuel i, waitForProjectGo resp i fuel = (i + fuel, List.replicate fuel 2000) := by
    intro fuel
    induction fuel with
    | zero => intro i; simp [waitForProjectGo]
    | succ f ih =>
      intro i
      have e : waitForProjectGo resp i (f + 1) =
          ((waitForProjectGo resp (i + 1) f).1,
            2000 :: (waitForProjectGo resp (i + 1) f).2) := by
        simp [waitForProjectGo, hall i]
      rw [e, ih (i + 1)]
      simp only [List.replicate_succ, Prod.mk.injEq]
      refine ⟨by omega, ?_⟩
      simp
  simpa [waitForProject] using key 20 0

/-- Witness for C9: with SSH never answering and operations always running, SSH
polling reports not-ready after exactly 30 attempts yet the droplet id is still
returned, and operation polling returns normally after exactly 20 attempts. -/
theorem c9_witness :
    (sshPoll (fun _ => 1)).1 = false ∧
    (sshPoll (fun _ => 1)).2.1 = 30 ∧
    (createDropletFinish 42 (fun _ => 1)).1 = 42 ∧
    waitForProject (fun _ => some true) = (20, List.replicate 20 2000) := by
  have h := c9_polling_loops_bounded_nonfatal (fun _ => 1) (fun _ => some true) 42
  have hb : (sshPoll (fun _ => 1)).1 = false := by decide
  exact ⟨hb, h.1.2.2.1 hb, h.1.2.2.2 hb, h.2.2.2 (fun _ => rfl)⟩

/-! ### Hostinger DNS synchronization (src/steps/hostinger.ts) -/

/-- A desired DNS record (hostinger.ts HostingerRecord). -/
structure HostingerRecord where
  type : String
  name : String
  content : String
  ttl : Nat
  priority : Option Nat
deriving DecidableEq, Repr

/-- An existing record of the hosted zone as the API returns it; the record's
value may arrive in a content field or a value field depending on the response
shape, which is why hostinger.ts line 107 checks both. -/
structure ZoneRecord where
  type : String
  name : String
  content : Option String
  value : Option String
deriving DecidableEq, Repr

/-- JavaScript String.prototype.toUpperCase over the character list. -/
def strToUpper (s : String) : String := String.mk (s.data.map Char.toUpper)

/-- The (type, name) key predicate on zone records, with the existing record's
type uppercased as in hostinger.ts line 105. -/
def matchKeyB (t n : String) (e : ZoneRecord) : Bool :=
  strToUpper e.type == t && e.name == n

/-- hostinger.ts line 105: match an existing record against a desired one. -/
def matchesKey (e : ZoneRecord) (r : HostingerRecord) : Bool :=
  matchKeyB r.type r.name e

/-- hostinger.ts line 107: the matched record already carries the desired
value. -/
def sameValue (e : ZoneRecord) (r : HostingerRecord) : Bool :=
  e.content == some r.content || e.value == some r.content

/-- The write performed for one desired record: no-op skip, in-place update, or
creation. -/
inductive DnsAction where
  | skip (t n : String)
  | update (t n v : String)
  | create (t n v : String)
deriving DecidableEq, Repr

/-- The per-record branch of syncDnsRecords (hostinger.ts lines 103-160). -/
def classifyRecord (existing : List ZoneRecord) (r : HostingerRecord) : DnsAction :=
  match existing.find? (fun e => matchesKey e r) with
  | some m =>
    if sameValue m r then .skip r.type r.name
    else .update r.type r.name r.content
  | none => .create r.type r.name r.content

/-- hostinger.ts syncDnsRecords (lines 87-161): the zone is fetched once and
every desired record is classified against that snapshot, in order. -/
def syncDnsRecords (existing : List ZoneRecord) (desired : List HostingerRecord) :
    List DnsAction :=
  desired.map (classifyRecord existing)

/-- Effect of one write on the hosted zone: an update overwrites the value of
the records matching its (type, name) key, a create appends the record, a skip
changes nothing. -/
def applyDnsAction (zone : List ZoneRecord) : DnsAction → List ZoneRecord
  | .skip _ _ => zone
  | .update t n v =>
    zone.map (fun e => if matchKeyB t n e then { e with content := some v } else e)
  | .create t n v => zone ++ [⟨t, n, some v, none⟩]

/-- The hosted zone after a sequence of writes. -/
def applyDnsActions (zone : List ZoneRecord) (as : List DnsAction) : List ZoneRecord :=
  as.foldl applyDnsAction zone

/-- The (type, name) key an action is about. -/
def actionKey : DnsAction → String × String
  | .skip t n => (t, n)
  | .update t n _ => (t, n)
  | .create t n _ => (t, n)

theorem actionKey_classify (ex : List ZoneRecord) (r : HostingerRecord) :
    actionKey (classifyRecord ex r) = (r.type, r.name) := by
  unfold classifyRecord
  cases h : ex.find? (fun e => matchesKey e r) with
  | none => rfl
  | some m => by_cases hv : sameValue m r = true <;> simp [actionKey, hv]

theorem classify_create_upper (ex : List ZoneRecord) (x : HostingerRecord)
    (hx : strToUpper x.type = x.type) :
    ∀ t n v, classifyRecord ex x = .create t n v → strToUpper t = t := by
  intro t n v h
  unfold classifyRecord at h
  cases hf : ex.find? (fun e => matchesKey e x) with
  | none =>
    rw [hf] at h
    obtain ⟨rfl, -, -⟩ := DnsAction.create.inj h
    exact hx
  | some m =>
    rw [hf] at h
    by_cases hv : sameValue m x = true <;> simp [hv] at h

theorem updFn_preserves_key (t n v T N : String) (e : ZoneRecord) :
    matchKeyB T N (if matchKeyB t n e then { e with content := some v } else e) =
      matchKeyB T N e := by
  by_cases h : matchKeyB t n e = true
  · rw [if_pos h]
    rfl
  · rw [if_neg h]

theorem find?_map_pres {Z : List ZoneRecord} {f : ZoneRecord → ZoneRecord}
    {p : ZoneRecord → Bool} (hpres : ∀ e, p (f e) = p e) :
    (Z.map f).find? p = (Z.find? p).map f := by
  rw [List.find?_map]
  have : p ∘ f = p := funext hpres
  rw [this]

theorem find?_applyDnsAction_other (zone : List ZoneRecord) (a : DnsAction)
    (T N : String) (hk : actionKey a ≠ (T, N))
    (hup : ∀ t n v, a = .create t n v → strToUpper t = t) :
    (applyDnsAction zone a).find? (matchKeyB T N) = zone.find? (matchKeyB T N) := by
  cases a with
  | skip t n => rfl
  | update t n v =>
    rw [applyDnsAction, find?_map_pres (updFn_preserves_key t n v T N)]
    cases hf : zone.find? (matchKeyB T N) with
    | none => rfl
    | some m =>
      have hm := List.find?_some hf
      simp only [matchKeyB, Bool.and_eq_true, beq_iff_eq] at hm
      have hne : matchKeyB t n m = false := by
        simp only [matchKeyB, Bool.and_eq_true, beq_iff_eq, Bool.eq_false_iff, ne_eq,
          not_and]
        intro h1 h2
        exact hk (by simp [actionKey, ← h1, ← h2, hm.1, hm.2])
      simp [hne]
  | create t n v =>
    rw [applyDnsAction, List.find?_append]
    have ht : strToUpper t = t := hup t n v rfl
    have he : ([⟨t, n, some v, none⟩] : List ZoneRecord).find? (matchKeyB T N) = none := by
      simp only [List.find?_singleton, matchKeyB, ht]
      rw [if_neg]
      simp only [Bool.and_eq_true, beq_iff_eq, not_and]
      intro h1 h2
      exact hk (by simp [actionKey, h1, h2])
    rw [he]
    cases zone.find? (matchKeyB T N) <;> rfl

theorem find?_applyDnsActions_others (as : List DnsAction) (T N : String)
    (h : ∀ a ∈ as, actionKey a ≠ (T, N) ∧ ∀ t n v, a = .create t n v → strToUpper t = t) :
    ∀ zone : List ZoneRecord,
      (applyDnsActions zone as).find? (matchKeyB T N) = zone.find? (matchKeyB T N) := by
  induction as with
  | nil => intro zone; rfl
  | cons a rest ih =>
    intro zone
    rw [applyDnsActions, List.foldl_cons]
    have step := find?_applyDnsAction_other zone a T N
      (h a (List.mem_cons_self a rest)).1 (h a (List.mem_cons_self a rest)).2
    have tail := ih (fun x hx => h x (List.mem_cons_of_mem a hx)) (applyDnsAction zone a)
    rw [applyDnsActions] at tail
    rw [tail, step]

theorem classify_after_own_action (existing Z₁ : List ZoneRecord)
    (r : HostingerRecord) (hU : strToUpper r.type = r.type)
    (hZ : Z₁.find? (matchKeyB r.type r.name) = existing.find? (matchKeyB r.type r.name)) :
    ∃ m, (applyDnsAction Z₁ (classifyRecord existing r)).find? (matchKeyB r.type r.name) =
        some m ∧ sameValue m r = true := by
  unfold classifyRecord
  have hmk : (fun e => matchesKey e r) = matchKeyB r.type r.name := by
    funext e; rfl
  rw [hmk]
  cases hf : existing.find? (matchKeyB r.type r.name) with
  | some m0 =>
    by_cases hv : sameValue m0 r = true
    · refine ⟨m0, ?_, hv⟩
      simp only [hv, if_true, applyDnsAction]
      rw [hZ, hf]
    · have hm0 := List.find?_some (hZ.trans hf)
      refine ⟨{ m0 with content := some r.content }, ?_, ?_⟩
      · simp only [hv, if_false, Bool.false_eq_true, applyDnsAction]
        rw [find?_map_pres (updFn_preserves_key r.type r.name r.content r.type r.name),
          hZ, hf]
        simp only [Option.map_some']
        rw [if_pos hm0]
      · simp [sameValue]
  | none =>
    refine ⟨⟨r.type, r.name, some r.content, none⟩, ?_, by simp [sameValue]⟩
    simp only [applyDnsAction]
    rw [List.find?_append, hZ, hf]
    simp [List.find?_singleton, matchKeyB, hU]

theorem classifyRecord_eq_skip (Z : List ZoneRecord) (r : HostingerRecord) (m : ZoneRecord)
    (hm : Z.find? (fun e => matchesKey e r) = some m) (hv : sameValue m r = true) :
    classifyRecord Z r = .skip r.type r.name := by
  unfold classifyRecord
  rw [hm]
  exact if_pos hv

theorem pairwise_key_ne {d₁ d₂ : List HostingerRecord} {r : HostingerRecord}
    (hD : (d₁ ++ r :: d₂).Pairwise (fun a b => a.type ≠ b.type ∨ a.name ≠ b.name)) :
    ∀ x ∈ d₁ ++ d₂, x.type ≠ r.type ∨ x.name ≠ r.name := by
  rw [List.pairwise_append] at hD
  obtain ⟨h1, h2, h12⟩ := hD
  intro x hx
  rcases List.mem_append.mp hx with hx1 | hx2
  · exact h12 x hx1 r (List.mem_cons_self r d₂)
  · have := (List.pairwise_cons.mp h2).1 x hx2
    tauto

theorem classify_after_sync (existing : List ZoneRecord)
    (desired : List HostingerRecord) (r : HostingerRecord) (hr : r ∈ desired)
    (hU : ∀ x ∈ desired, strToUpper x.type = x.type)
    (hD : desired.Pairwise (fun a b => a.type ≠ b.type ∨ a.name ≠ b.name)) :
    classifyRecord (applyDnsActions existing (syncDnsRecords existing desired)) r =
      .skip r.type r.name := by
  obtain ⟨d₁, d₂, rfl⟩ := List.append_of_mem hr
  have hkey := pairwise_key_ne hD
  have hothers : ∀ x ∈ d₁ ++ d₂,
      actionKey (classifyRecord existing x) ≠ (r.type, r.name) ∧
      ∀ t n v, classifyRecord existing x = .create t n v → strToUpper t = t := by
    intro x hx
    have hxd : x ∈ d₁ ++ r :: d₂ := by
      rcases List.mem_append.mp hx with h | h
      · exact List.mem_append.mpr (Or.inl h)
      · exact List.mem_append.mpr (Or.inr (List.mem_cons_of_mem r h))
    refine ⟨?_, classify_create_upper existing x (hU x hxd)⟩
    rw [actionKey_classify]
    have hne := hkey x hx
    intro hcon
    rw [Prod.mk.injEq] at hcon
    tauto
  have hcond1 : ∀ a ∈ d₁.map (classifyRecord existing),
      actionKey a ≠ (r.type, r.name) ∧ ∀ t n v, a = .create t n v → strToUpper t = t := by
    intro a ha
    obtain ⟨x, hx, rfl⟩ := List.mem_map.mp ha
    exact hothers x (List.mem_append.mpr (Or.inl hx))
  have hcond2 : ∀ a ∈ d₂.map (classifyRecord existing),
      actionKey a ≠ (r.type, r.name) ∧ ∀ t n v, a = .create t n v → strToUpper t = t := by
    intro a ha
    obtain ⟨x, hx, rfl⟩ := List.mem_map.mp ha
    exact hothers x (List.mem_append.mpr (Or.inr hx))
  have hsplit : syncDnsRecords existing (d₁ ++ r :: d₂) =
      d₁.map (classifyRecord existing) ++
        (classifyRecord existing r :: d₂.map (classifyRecord existing)) := by
    simp [syncDnsRecords]
  have hfold : applyDnsActions existing
      (d₁.map (classifyRecord existing) ++
        (classifyRecord existing r :: d₂.map (classifyRecord existing))) =
      applyDnsActions
        (applyDnsAction (applyDnsActions existing (d₁.map (classifyRecord existing)))
          (classifyRecord existing r))
        (d₂.map (classifyRecord existing)) := by
    simp [applyDnsActions, List.foldl_append]
  have hzone : applyDnsActions existing (syncDnsRecords existing (d₁ ++ r :: d₂)) =
      applyDnsActions
        (applyDnsAction (applyDnsActions existing (d₁.map (classifyRecord existing)))
          (classifyRecord existing r))
        (d₂.map (classifyRecord existing)) := by
    rw [hsplit]
    exact hfold
  have hZ₁ := find?_applyDnsActions_others (d₁.map (classifyRecord existing))
    r.type r.name hcond1 existing
  obtain ⟨m, hm, hmv⟩ := classify_after_own_action existing _ r
    (hU r (List.mem_append.mpr (Or.inr (List.mem_cons_self r d₂)))) hZ₁
  have hfin := find?_applyDnsActions_others (d₂.map (classifyRecord existing))
    r.type r.name hcond2
    (applyDnsAction (applyDnsActions existing (d₁.map (classifyRecord existing)))
      (classifyRecord existing r))
  refine classifyRecord_eq_skip _ r m ?_ hmv
  rw [hzone]
  exact hfin.trans hm

/-- C7: DNS synchronization classifies each desired record against the zone's
(type, name)-matching record — identical value means skip, different value means
update in place, no match means create — and, when the desired records'
(type, name) keys are pairwise distinct and their types uppercase-normalized (as
the caller builds them), a second synchronization against the zone produced by
the first performs only skips: zero update and zero create calls. -/
theorem c7_dns_sync_second_run_all_skips :
    ∀ (existing : List ZoneRecord) (desired : List HostingerRecord),
      (∀ x ∈ desired, strToUpper x.type = x.type) →
      desired.Pairwise (fun a b => a.type ≠ b.type ∨ a.name ≠ b.name) →
      (∀ r ∈ desired,
        (existing.find? (fun e => matchesKey e r) = none →
          classifyRecord existing r = .create r.type r.name r.content) ∧
        (∀ m, existing.find? (fun e => matchesKey e r) = some m →
          (sameValue m r = true → classifyRecord existing r = .skip r.type r.name) ∧
          (sameValue m r = false →
            classifyRecord existing r = .update r.type r.name r.content))) ∧
      syncDnsRecords (applyDnsActions existing (syncDnsRecords existing desired)) desired =
        desired.map (fun r => DnsAction.skip r.type r.name) := by
  intro existing desired hU hD
  constructor
  · intro r _
    refine ⟨?_, ?_⟩
    · intro hf
      simp [classifyRecord, hf]
    · intro m hf
      exact ⟨fun hv => by simp [classifyRecord, hf, hv],
        fun hv => by simp [classifyRecord, hf, hv]⟩
  · unfold syncDnsRecords
    apply List.map_congr_left
    intro r hr
    exact classify_after_sync existing desired r hr hU hD

/-- Counterexample for C7 as stated for arbitrary desired sets: two desired
records sharing the (type, name) key "TXT"/"x" with different values are both
created on the first run (the zone snapshot is fetched once), and the second
run then updates the second record instead of skipping it — the unconditional
claim of zero update/create calls on the second run is false. -/
theorem c7_counterexample :
    syncDnsRecords
        (applyDnsActions []
          (syncDnsRecords []
            [⟨"TXT", "x", "v1", 3600, none⟩, ⟨"TXT", "x", "v2", 3600, none⟩]))
        [⟨"TXT", "x", "v1", 3600, none⟩, ⟨"TXT", "x", "v2", 3600, none⟩] =
      [DnsAction.skip "TXT" "x", DnsAction.update "TXT" "x" "v2"] ∧
    syncDnsRecords
        (applyDnsActions []
          (syncDnsRecords []
            [⟨"TXT", "x", "v1", 3600, none⟩, ⟨"TXT", "x", "v2", 3600, none⟩]))
        [⟨"TXT", "x", "v1", 3600, none⟩, ⟨"TXT", "x", "v2", 3600, none⟩] ≠
      ([⟨"TXT", "x", "v1", 3600, none⟩, (⟨"TXT", "x", "v2", 3600, none⟩ : HostingerRecord)].map
        (fun r => DnsAction.skip r.type r.name)) := by
  constructor
  · decide
  · decide

/-- Witness for C7: a concrete run over a zone holding a stale A record and a
two-record desired set (one update, one create); the second synchronization is
all skips. -/
theorem c7_witness :
    (∀ x ∈ [(⟨"A", "login.ciam", "1.2.3.4", 3600, none⟩ : HostingerRecord),
        ⟨"A", "olympus", "1.2.3.4", 3600, none⟩], strToUpper x.type = x.type) ∧
    ([(⟨"A", "login.ciam", "1.2.3.4", 3600, none⟩ : HostingerRecord),
        ⟨"A", "olympus", "1.2.3.4", 3600, none⟩].Pairwise
      (fun a b => a.type ≠ b.type ∨ a.name ≠ b.name)) ∧
    syncDnsRecords
        (applyDnsActions [⟨"A", "login.ciam", some "9.9.9.9", none⟩]
          (syncDnsRecords [⟨"A", "login.ciam", some "9.9.9.9", none⟩]
            [⟨"A", "login.ciam", "1.2.3.4", 3600, none⟩,
             ⟨"A", "olympus", "1.2.3.4", 3600, none⟩]))
        [⟨"A", "login.ciam", "1.2.3.4", 3600, none⟩,
         ⟨"A", "olympus", "1.2.3.4", 3600, none⟩] =
      [DnsAction.skip "A" "login.ciam", DnsAction.skip "A" "olympus"] :=
  ⟨by decide, by decide,
   (c7_dns_sync_second_run_all_skips
      [⟨"A", "login.ciam", some "9.9.9.9", none⟩]
      [⟨"A", "login.ciam", "1.2.3.4", 3600, none⟩,
       ⟨"A", "olympus", "1.2.3.4", 3600, none⟩]
      (by decide) (by decide)).2⟩

end Octl
